import Mathlib

/-
Verification of the Trådfri MQTT-Thing codec (src/tradfri-codec.js).

Shallow embedding conventions:
* JSON wire messages are modelled as a record of optional fields; a field
  holding none models both an absent JSON field and JSON null (both falsy).
  JSON.stringify followed by JSON.parse is the identity on these records,
  so per-property encode produces the record directly and per-property
  decode consumes it directly.
* JS numbers are modelled as rationals; Math.round is round-half-up,
  that is floor (q + 1/2), which matches JS Math.round on all reals.
* JS truthiness tests on numbers are modelled as inequality with 0, and on
  strings as inequality with the empty string.
* The chromaticity converter required from cie-rgb-converter.js is not part
  of src/; it is modelled from the specification over the reals.
-/

namespace TradfriCodec

/-- JS Math.round: rounds half toward positive infinity, floor (q + 1/2).
Defined through the executable Rat.floor so that concrete instances compute. -/
def jsRound (q : ℚ) : ℤ :=
  (q + 1/2).floor

/-- Chromaticity pair carried in the color field of an inbound wire message. -/
structure CIEColor where
  x : ℚ
  y : ℚ
deriving DecidableEq

/-- RGB triple carried in the color field of an outbound wire message
(the wire color field is asymmetric: x and y inbound, r and g and b outbound). -/
structure RGBTriple where
  r : ℚ
  g : ℚ
  b : ℚ
deriving DecidableEq

/-- A wire JSON message. Every field is optional; none models an absent field
(or JSON null). The asymmetric color field is split into colorXY (inbound
chromaticity object) and colorRGB (outbound r g b object) since no code path
in the source reads both shapes from one message. -/
structure WireMsg where
  state : Option String := none
  brightness : Option ℚ := none
  color_temp : Option ℚ := none
  colorXY : Option CIEColor := none
  colorRGB : Option RGBTriple := none
deriving DecidableEq

/-- properties.on.encode: returns JSON with state ON for a truthy message and
OFF otherwise (src/tradfri-codec.js lines 61-63). -/
def onEncode (message : Bool) : WireMsg :=
  { state := some (if message then "ON" else "OFF") }

/-- properties.on.decode: if msg.state is truthy (present, nonempty string),
return the boolean state == "ON", else return undefined
(src/tradfri-codec.js lines 65-70). -/
def onDecode (msg : WireMsg) : Option Bool :=
  match msg.state with
  | some s => if s ≠ "" then some (s == "ON") else none
  | none => none

/-- properties.brightness.encode: scale 0-100 up to 0-254 by Math.round
(message * 2.54); state is ON iff the scaled brightness is truthy (nonzero)
(src/tradfri-codec.js lines 74-82). -/
def brightnessEncode (message : ℚ) : WireMsg :=
  let brightness := jsRound (message * 2.54)
  { state := some (if brightness ≠ 0 then "ON" else "OFF"),
    brightness := some (brightness : ℚ) }

/-- properties.brightness.decode: if msg.brightness is truthy (present and
nonzero), scale 0-254 down to 0-100 by Math.round (b / 2.54), else undefined
(src/tradfri-codec.js lines 84-90). -/
def brightnessDecode (msg : WireMsg) : Option ℤ :=
  match msg.brightness with
  | some b => if b ≠ 0 then some (jsRound (b / 2.54)) else none
  | none => none

/-- properties.colorTemperature.encode: linear rescale from the zigbee range
140-500 into the ikea range 250-454, rounded (src/tradfri-codec.js
lines 95-111). The let bindings mirror the source constants. -/
def colorTemperatureEncode (message : ℚ) : WireMsg :=
  let ikeaMax : ℚ := 454
  let ikeaMin : ℚ := 250
  let ikeaRange : ℚ := ikeaMax - ikeaMin
  let zigbeeMax : ℚ := 500
  let zigbeeMin : ℚ := 140
  let zigbeeRange : ℚ := zigbeeMax - zigbeeMin
  let colorTemp := jsRound ((message - zigbeeMin) * ikeaRange / zigbeeRange + ikeaMin)
  { color_temp := some (colorTemp : ℚ) }

/-- properties.colorTemperature.decode: if msg.color_temp is truthy (present
and nonzero), inverse linear rescale from the ikea range 250-454 back to the
zigbee range 140-500, rounded, else undefined (src/tradfri-codec.js
lines 114-130). -/
def colorTemperatureDecode (msg : WireMsg) : Option ℤ :=
  let ikeaMax : ℚ := 454
  let ikeaMin : ℚ := 250
  let ikeaRange : ℚ := ikeaMax - ikeaMin
  let zigbeeMax : ℚ := 500
  let zigbeeMin : ℚ := 140
  let zigbeeRange : ℚ := zigbeeMax - zigbeeMin
  match msg.color_temp with
  | some ct =>
      if ct ≠ 0 then some (jsRound ((ct - ikeaMin) * zigbeeRange / ikeaRange + zigbeeMin))
      else none
  | none => none

/-- properties.RGB.encode after the message.split(",") and numeric coercion of
a well-formed three-integer "r,g,b" input: brightness is the rounded AERT luma
0.299 r + 0.587 g + 0.114 b, state is ON iff that brightness is truthy, and
the color field carries the raw r g b values (src/tradfri-codec.js
lines 134-152). -/
def rgbEncode (r g b : ℤ) : WireMsg :=
  let brightness := jsRound (0.299 * (r : ℚ) + 0.587 * (g : ℚ) + 0.114 * (b : ℚ))
  { state := some (if brightness ≠ 0 then "ON" else "OFF"),
    brightness := some (brightness : ℚ),
    colorRGB := some ⟨(r : ℚ), (g : ℚ), (b : ℚ)⟩ }

/-- Modelled from the spec: gamma correction, step 3 of the Chromaticity
Converter algorithm (spec section 4.2) of cie-rgb-converter.js, which is
required by src/tradfri-codec.js but whose source is not under src/.
Piecewise sRGB gamma: linear segment below the threshold, power law above.
Real-valued idealization of the floating-point reference code. -/
noncomputable def gammaCorrect (c : ℝ) : ℝ :=
  if c ≤ 0.0031308 then 12.92 * c else 1.055 * c ^ ((1 : ℝ) / 2.4) - 0.055

/-- Modelled from the spec: step 4 of the Chromaticity Converter algorithm
(spec section 4.2): scale a display channel to the 8-bit range, round to the
nearest integer, and clamp to [0, 255], clamping toward 0 and never wrapping. -/
noncomputable def channelTo255 (c : ℝ) : ℤ :=
  min 255 (max 0 (Int.floor (c * 255 + 1/2)))

/-- Modelled from the spec: the Chromaticity Converter cie_to_rgb of
cie-rgb-converter.js, absent from src/. Spec section 4.2: brightness is taken
on the 0-254 wire scale and normalized to the tristimulus Y; X and Z are
reconstructed from the chromaticity pair (step 1); the standard linear XYZ to
linear sRGB matrix is applied (step 2); then gamma correction (step 3) and
clamping with rounding (step 4). -/
noncomputable def cie_to_rgb (x y brightness : ℝ) : ℤ × ℤ × ℤ :=
  let z := 1 - x - y
  let Y := brightness / 254
  let X := Y / y * x
  let Z := Y / y * z
  let r := X * 3.2406 - Y * 1.5372 - Z * 0.4986
  let g := -X * 0.9689 + Y * 1.8758 + Z * 0.0415
  let b := X * 0.0557 - Y * 0.2040 + Z * 1.0570
  (channelTo255 (gammaCorrect r), channelTo255 (gammaCorrect g), channelTo255 (gammaCorrect b))

/-- properties.RGB.decode: if msg.color is truthy, invoke the Chromaticity
Converter with color.x, color.y and msg.brightness and return the resulting
triple; else undefined (src/tradfri-codec.js lines 154-166). The comma join
of the triple is modelled as the tuple itself. Modelled from the spec for the
absent-brightness case: the 0-254 convention maximum 254 is substituted. -/
noncomputable def rgbDecode (msg : WireMsg) : Option (ℤ × ℤ × ℤ) :=
  match msg.colorXY with
  | some c => some (cie_to_rgb (c.x : ℝ) (c.y : ℝ) ((msg.brightness.getD 254 : ℚ) : ℝ))
  | none => none

/-- Contextual information passed to the generic handlers. -/
structure Info where
  topic : String
  property : String

/-- Observable effect of one generic handler invocation: the log lines
emitted and the arguments passed to the output callback, in order. -/
structure CallTrace where
  logs : List String
  outputs : List String

/-- Body of the first generic method of the object literal returned by init
(src/tradfri-codec.js lines 32-38): log the invocation context, then call
output exactly once with the unmodified message. -/
def genericEncodeBody (message : String) (info : Info) : CallTrace :=
  { logs := ["encode() called for topic [" ++ info.topic ++ "], property [" ++
      info.property ++ "] with message [" ++ message ++ "]"],
    outputs := [message] }

/-- Body of the second generic method of the object literal returned by init
(src/tradfri-codec.js lines 50-57): log the invocation context, then call
output exactly once with the unmodified message. -/
def genericDecodeBody (message : String) (info : Info) : CallTrace :=
  { logs := ["decode() called for topic [" ++ info.topic ++ "], property [" ++
      info.property ++ "] with message [" ++ message ++ "]"],
    outputs := [message] }

/-- A member of the object returned by init: a generic handler method, or the
per-property codec table (whose entries are the codec functions above). -/
inductive ObjMember where
  | handler (body : String → Info → CallTrace)
  | propertiesTable

/-- JS object literal member insertion: a duplicate property name overwrites
the earlier member in place, later members are appended. -/
def jsObjInsert (obj : List (String × ObjMember)) (key : String) (v : ObjMember) :
    List (String × ObjMember) :=
  if obj.any (fun p => p.1 == key) then
    obj.map (fun p => if p.1 == key then (key, v) else p)
  else
    obj ++ [(key, v)]

/-- The object literal returned by init (src/tradfri-codec.js lines 21-169),
built member by member. The two generic methods are method definitions whose
property name is the keyword function (no encode or decode key appears in the
source), so under JS object literal semantics the second, decode-logging
method overwrites the first. -/
def initObject : List (String × ObjMember) :=
  jsObjInsert
    (jsObjInsert
      (jsObjInsert [] "function" (ObjMember.handler genericEncodeBody))
      "function" (ObjMember.handler genericDecodeBody))
    "properties" ObjMember.propertiesTable

/-- Property lookup on a JS object value. -/
def jsGet (obj : List (String × ObjMember)) (key : String) : Option ObjMember :=
  (obj.find? (fun p => p.1 == key)).map Prod.snd

/-- Startup log line emitted by init (src/tradfri-codec.js line 19). -/
def initLogLine (name : String) : String :=
  "Trådfri codec initialized with " ++ name ++ "."

/-- The executable rational floor agrees with the order-theoretic Int.floor. -/
theorem ratFloor_eq_intFloor (q : ℚ) : q.floor = Int.floor q :=
  (Rat.floor_def' q).trans Rat.floor_def.symm

/-- jsRound through Int.floor, for the order lemmas. -/
theorem jsRound_def (q : ℚ) : jsRound q = Int.floor (q + 1/2) :=
  ratFloor_eq_intFloor _

/-- Half-round bound, upper side: jsRound q is at most q + 1/2. -/
theorem jsRound_le (q : ℚ) : (jsRound q : ℚ) ≤ q + 1/2 := by
  rw [jsRound_def]
  exact Int.floor_le _

/-- Half-round bound, lower side: jsRound q exceeds q - 1/2. -/
theorem jsRound_gt (q : ℚ) : q - 1/2 < (jsRound q : ℚ) := by
  rw [jsRound_def]
  have h := Int.sub_one_lt_floor (q + 1/2)
  have heq : q + 1/2 - 1 = q - 1/2 := by ring
  rw [heq] at h
  exact h

/-- jsRound is monotone. -/
theorem jsRound_mono {a b : ℚ} (h : a ≤ b) : jsRound a ≤ jsRound b := by
  rw [jsRound_def, jsRound_def]
  exact Int.floor_mono (by linarith)

/-- Concrete evaluation rule for jsRound, with the two floor bounds as side
conditions dischargeable by norm_num. -/
theorem jsRound_eq (q : ℚ) (n : ℤ) (h1 : (n : ℚ) ≤ q + 1/2) (h2 : q + 1/2 < n + 1) :
    jsRound q = n := by
  rw [jsRound_def]
  exact Int.floor_eq_iff.mpr ⟨h1, h2⟩

/-- Evaluation of colorTemperatureEncode with the source constants inlined. -/
theorem colorTemperatureEncode_eq (m : ℚ) :
    colorTemperatureEncode m =
      { color_temp := some ((jsRound ((m - 140) * (454 - 250) / (500 - 140) + 250) : ℤ) : ℚ) } :=
  rfl

/-- Evaluation of colorTemperatureDecode on a message with a truthy color_temp. -/
theorem colorTemperatureDecode_eq (msg : WireMsg) (ct : ℚ)
    (hm : msg.color_temp = some ct) (h : ct ≠ 0) :
    colorTemperatureDecode msg =
      some (jsRound ((ct - 250) * (500 - 140) / (454 - 250) + 140)) := by
  simp only [colorTemperatureDecode, hm]
  rw [if_pos h]

/-- Evaluation of brightnessEncode with the rounded value named. -/
theorem brightnessEncode_eq (m : ℚ) :
    brightnessEncode m =
      { state := some (if jsRound (m * 2.54) ≠ 0 then "ON" else "OFF"),
        brightness := some ((jsRound (m * 2.54) : ℤ) : ℚ) } :=
  rfl

/-- Evaluation of brightnessDecode on a message with a truthy brightness. -/
theorem brightnessDecode_eq (msg : WireMsg) (b : ℚ)
    (hm : msg.brightness = some b) (h : b ≠ 0) :
    brightnessDecode msg = some (jsRound (b / 2.54)) := by
  simp only [brightnessDecode, hm]
  rw [if_pos h]

/-- Each clamped converter channel lies in [0, 255]. -/
theorem channelTo255_mem (c : ℝ) : 0 ≤ channelTo255 c ∧ channelTo255 c ≤ 255 :=
  ⟨le_min (by norm_num) (le_max_left 0 _), min_le_left _ _⟩

/-- A linear channel value within one part in a thousand of 1 maps to the
display value 255: the power branch of the gamma is taken, the corrected
value stays within rounding distance of 1, and the clamped rounding lands on
255 exactly. -/
theorem channelTo255_near_one (c : ℝ) (h1 : (999 : ℝ) / 1000 ≤ c) (h2 : c ≤ 1001 / 1000) :
    channelTo255 (gammaCorrect c) = 255 := by
  have hpos : (0 : ℝ) < c := by linarith
  have hth : ¬(c ≤ (0.0031308 : ℝ)) := not_le.mpr (lt_of_lt_of_le (by norm_num) h1)
  rw [gammaCorrect, if_neg hth]
  have hp1 : (999 : ℝ) / 1000 ≤ c ^ ((1 : ℝ) / 2.4) := by
    rcases le_total c 1 with hc | hc
    · have hup := Real.rpow_le_rpow_of_exponent_ge hpos hc (by norm_num : (1 : ℝ) / 2.4 ≤ 1)
      rw [Real.rpow_one] at hup
      linarith
    · have hlow := Real.rpow_le_rpow_of_exponent_le hc (by norm_num : (0 : ℝ) ≤ 1 / 2.4)
      rw [Real.rpow_zero] at hlow
      linarith
  have hp2 : c ^ ((1 : ℝ) / 2.4) ≤ 1001 / 1000 := by
    rcases le_total c 1 with hc | hc
    · have hone := Real.rpow_le_one (le_of_lt hpos) hc (by norm_num : (0 : ℝ) ≤ 1 / 2.4)
      linarith
    · have hup := Real.rpow_le_rpow_of_exponent_le hc (by norm_num : (1 : ℝ) / 2.4 ≤ 1)
      rw [Real.rpow_one] at hup
      linarith
  rw [channelTo255]
  have hfl : Int.floor ((1.055 * c ^ ((1 : ℝ) / 2.4) - 0.055) * 255 + 1/2) = 255 := by
    rw [Int.floor_eq_iff]
    constructor
    · push_cast
      nlinarith
    · push_cast
      nlinarith
  rw [hfl]
  norm_num

/-- C1: init returns an object with no generic encode or decode member. The
source writes both generic methods as method definitions named by the keyword
function; the second (decode-logging) one overwrites the first, so the
returned object exposes only the members function and properties, and
accessing encode or decode yields undefined. Each handler body itself does
log the invocation context and forwards the message unchanged by calling
output exactly once with the original message. -/
theorem init_object_members :
    jsGet initObject "encode" = none ∧
    jsGet initObject "decode" = none ∧
    jsGet initObject "function" = some (ObjMember.handler genericDecodeBody) ∧
    (∀ m i, (genericEncodeBody m i).outputs = [m]) ∧
    (∀ m i, (genericDecodeBody m i).outputs = [m]) :=
  ⟨rfl, rfl, rfl, fun _ _ => rfl, fun _ _ => rfl⟩

/-- C5: for every boolean b, decoding the result of encoding b with the on
property codec returns exactly b; encode maps true to state ON and false to
state OFF, and decode of such a message returns the boolean state == "ON". -/
theorem on_roundtrip :
    (onEncode true).state = some "ON" ∧ (onEncode false).state = some "OFF" ∧
    ∀ b : Bool, onDecode (onEncode b) = some b := by
  refine ⟨rfl, rfl, ?_⟩
  intro b
  cases b <;> rfl

/-- C6: every per-property decode returns undefined, rather than failing or
producing a value, on any wire message whose relevant field is absent or
falsy: a missing or empty state for on, a missing or zero brightness, a
missing or zero color_temp, and a missing color for RGB. -/
theorem decode_falsy_undefined (msg : WireMsg) :
    (msg.state = none ∨ msg.state = some "" → onDecode msg = none) ∧
    (msg.brightness = none ∨ msg.brightness = some 0 → brightnessDecode msg = none) ∧
    (msg.color_temp = none ∨ msg.color_temp = some 0 → colorTemperatureDecode msg = none) ∧
    (msg.colorXY = none → rgbDecode msg = none) := by
  refine ⟨?_, ?_, ?_, ?_⟩
  · rintro (h | h) <;> simp [onDecode, h]
  · rintro (h | h) <;> simp [brightnessDecode, h]
  · rintro (h | h) <;> simp [colorTemperatureDecode, h]
  · intro h
    simp [rgbDecode, h]

/-- C6 witness: the theorem applied to the empty wire message, every
falsy-field hypothesis discharged. -/
theorem decode_falsy_undefined_witness :
    onDecode {} = none ∧ brightnessDecode {} = none ∧
    colorTemperatureDecode {} = none ∧ rgbDecode {} = none :=
  ⟨(decode_falsy_undefined {}).1 (Or.inl rfl),
   (decode_falsy_undefined {}).2.1 (Or.inl rfl),
   (decode_falsy_undefined {}).2.2.1 (Or.inl rfl),
   (decode_falsy_undefined {}).2.2.2 rfl⟩

/-- C7: for every integer v, colorTemperatureEncode emits a color_temp equal
to round ((v - 140) * (454 - 250) / (500 - 140) + 250); in particular 140
encodes to 250 and 500 encodes to 454. -/
theorem colorTemperatureEncode_formula :
    (∀ v : ℤ, (colorTemperatureEncode (v : ℚ)).color_temp =
        some ((jsRound (((v : ℚ) - 140) * (454 - 250) / (500 - 140) + 250) : ℤ) : ℚ)) ∧
    (colorTemperatureEncode 140).color_temp = some 250 ∧
    (colorTemperatureEncode 500).color_temp = some 454 := by
  refine ⟨fun v => rfl, ?_, ?_⟩
  · rw [colorTemperatureEncode_eq,
      jsRound_eq ((140 - 140) * (454 - 250) / (500 - 140) + 250) 250 (by norm_num) (by norm_num)]
    norm_num
  · rw [colorTemperatureEncode_eq,
      jsRound_eq ((500 - 140) * (454 - 250) / (500 - 140) + 250) 454 (by norm_num) (by norm_num)]
    norm_num

/-- C8: for every well-formed three-integer r,g,b input, the RGB encode emits
brightness round (0.299 r + 0.587 g + 0.114 b), state ON exactly when that
rounded luma is nonzero, and the color object with the raw channels; in
particular 255,0,0 encodes to brightness 76, state ON and color 255, 0, 0. -/
theorem rgbEncode_formula :
    (∀ r g b : ℤ, rgbEncode r g b =
      { state := some (if jsRound (0.299 * (r : ℚ) + 0.587 * (g : ℚ) + 0.114 * (b : ℚ)) ≠ 0
          then "ON" else "OFF"),
        brightness :=
          some ((jsRound (0.299 * (r : ℚ) + 0.587 * (g : ℚ) + 0.114 * (b : ℚ)) : ℤ) : ℚ),
        colorRGB := some ⟨(r : ℚ), (g : ℚ), (b : ℚ)⟩ }) ∧
    (rgbEncode 255 0 0).state = some "ON" ∧
    (rgbEncode 255 0 0).brightness = some 76 ∧
    (rgbEncode 255 0 0).colorRGB = some ⟨255, 0, 0⟩ := by
  have h76 : jsRound (0.299 * ((255 : ℤ) : ℚ) + 0.587 * ((0 : ℤ) : ℚ) + 0.114 * ((0 : ℤ) : ℚ)) = 76 :=
    jsRound_eq _ 76 (by norm_num) (by norm_num)
  refine ⟨fun r g b => rfl, ?_, ?_, ?_⟩
  · show some (if jsRound (0.299 * ((255 : ℤ) : ℚ) + 0.587 * ((0 : ℤ) : ℚ) +
        0.114 * ((0 : ℤ) : ℚ)) ≠ 0 then "ON" else "OFF") = some "ON"
    rw [h76]
    norm_num
  · show some ((jsRound (0.299 * ((255 : ℤ) : ℚ) + 0.587 * ((0 : ℤ) : ℚ) +
        0.114 * ((0 : ℤ) : ℚ)) : ℤ) : ℚ) = some 76
    rw [h76]
    norm_num
  · show some (⟨((255 : ℤ) : ℚ), ((0 : ℤ) : ℚ), ((0 : ℤ) : ℚ)⟩ : RGBTriple) = some ⟨255, 0, 0⟩
    norm_num [RGBTriple.mk.injEq]

/-- C2: for every integer v in [140, 500], decoding the result of encoding v
with the colorTemperature property codec returns an integer within plus or
minus 1 of v, and in particular never returns undefined on such round-tripped
messages. -/
theorem colorTemperature_roundtrip (v : ℤ) (h1 : 140 ≤ v) (h2 : v ≤ 500) :
    ∃ d : ℤ, colorTemperatureDecode (colorTemperatureEncode (v : ℚ)) = some d ∧ |d - v| ≤ 1 := by
  have hv1 : (140 : ℚ) ≤ (v : ℚ) := by exact_mod_cast h1
  have hv2 : (v : ℚ) ≤ 500 := by exact_mod_cast h2
  rw [colorTemperatureEncode_eq]
  have hae1 := jsRound_le (((v : ℚ) - 140) * (454 - 250) / (500 - 140) + 250)
  have hae2 := jsRound_gt (((v : ℚ) - 140) * (454 - 250) / (500 - 140) + 250)
  set e : ℤ := jsRound (((v : ℚ) - 140) * (454 - 250) / (500 - 140) + 250) with he
  have he249 : (249 : ℤ) < e := by
    have hq : (249 : ℚ) < (e : ℚ) := by linarith
    exact_mod_cast hq
  have hene : ((e : ℚ)) ≠ 0 := Int.cast_ne_zero.mpr (by omega)
  refine ⟨jsRound (((e : ℚ) - 250) * (500 - 140) / (454 - 250) + 140),
    colorTemperatureDecode_eq _ _ rfl hene, ?_⟩
  have hd1 := jsRound_le (((e : ℚ) - 250) * (500 - 140) / (454 - 250) + 140)
  have hd2 := jsRound_gt (((e : ℚ) - 250) * (500 - 140) / (454 - 250) + 140)
  set d : ℤ := jsRound (((e : ℚ) - 250) * (500 - 140) / (454 - 250) + 140) with hd
  have hlt : (d : ℚ) < (v : ℚ) + 2 := by linarith
  have hgt : (v : ℚ) - 2 < (d : ℚ) := by linarith
  have hltz : d < v + 2 := by exact_mod_cast hlt
  have hgtz : v - 2 < d := by exact_mod_cast hgt
  rw [abs_le]
  omega

/-- C2 witness: the theorem applied at 300, with both hypotheses discharged. -/
theorem colorTemperature_roundtrip_witness :
    (140 : ℤ) ≤ 300 ∧ (300 : ℤ) ≤ 500 ∧
    ∃ d : ℤ, colorTemperatureDecode (colorTemperatureEncode ((300 : ℤ) : ℚ)) = some d ∧
      |d - 300| ≤ 1 :=
  ⟨by decide, by decide, colorTemperature_roundtrip 300 (by decide) (by decide)⟩

/-- C3: for every integer v in [0, 100], decoding the result of encoding v
with the brightness property codec returns a value within plus or minus 1 of
v, except v = 0 which decodes to undefined. -/
theorem brightness_roundtrip (v : ℤ) (h1 : 0 ≤ v) (h2 : v ≤ 100) :
    (v = 0 → brightnessDecode (brightnessEncode (v : ℚ)) = none) ∧
    (v ≠ 0 → ∃ d : ℤ, brightnessDecode (brightnessEncode (v : ℚ)) = some d ∧ |d - v| ≤ 1) := by
  constructor
  · rintro rfl
    have h0 : jsRound (((0 : ℤ) : ℚ) * 2.54) = 0 := jsRound_eq _ 0 (by norm_num) (by norm_num)
    rw [brightnessEncode_eq, h0]
    simp [brightnessDecode]
  · intro hne
    have hv1 : (1 : ℚ) ≤ (v : ℚ) := by exact_mod_cast (by omega : (1 : ℤ) ≤ v)
    have hv2 : (v : ℚ) ≤ 100 := by exact_mod_cast h2
    rw [brightnessEncode_eq]
    have hae1 := jsRound_le ((v : ℚ) * 2.54)
    have hae2 := jsRound_gt ((v : ℚ) * 2.54)
    set e : ℤ := jsRound ((v : ℚ) * 2.54) with he
    have he2 : (2 : ℤ) < e := by
      have hq : (2 : ℚ) < (e : ℚ) := by linarith
      exact_mod_cast hq
    have hene : ((e : ℚ)) ≠ 0 := Int.cast_ne_zero.mpr (by omega)
    refine ⟨jsRound ((e : ℚ) / 2.54), brightnessDecode_eq _ _ rfl hene, ?_⟩
    have hd1 := jsRound_le ((e : ℚ) / 2.54)
    have hd2 := jsRound_gt ((e : ℚ) / 2.54)
    set d : ℤ := jsRound ((e : ℚ) / 2.54) with hd
    have h254 : (2.54 : ℚ) = 127 / 50 := by norm_num
    rw [h254] at hae1 hae2 hd1 hd2
    have hlt : (d : ℚ) < (v : ℚ) + 2 := by linarith
    have hgt : (v : ℚ) - 2 < (d : ℚ) := by linarith
    have hltz : d < v + 2 := by exact_mod_cast hlt
    have hgtz : v - 2 < d := by exact_mod_cast hgt
    rw [abs_le]
    omega

/-- C3 witness: the theorem applied at 0 (undefined branch) and at 50
(round-trip branch), with all hypotheses discharged. -/
theorem brightness_roundtrip_witness :
    ((0 : ℤ) ≤ 0 ∧ (0 : ℤ) ≤ 100 ∧
      brightnessDecode (brightnessEncode ((0 : ℤ) : ℚ)) = none) ∧
    ((0 : ℤ) ≤ 50 ∧ (50 : ℤ) ≤ 100 ∧ (50 : ℤ) ≠ 0 ∧
      ∃ d : ℤ, brightnessDecode (brightnessEncode ((50 : ℤ) : ℚ)) = some d ∧ |d - 50| ≤ 1) :=
  ⟨⟨by decide, by decide, (brightness_roundtrip 0 (by decide) (by decide)).1 rfl⟩,
   ⟨by decide, by decide, by decide,
    (brightness_roundtrip 50 (by decide) (by decide)).2 (by decide)⟩⟩

/-- C4 counterexample: the brightness decode performs no clamping, so the
claim that its return value never exceeds 100 fails at the wire message with
brightness 300, which decodes to 118. -/
theorem brightnessDecode_unclamped_counterexample :
    brightnessDecode { brightness := some (300 : ℚ) } = some 118 ∧ ¬((118 : ℤ) ≤ 100) := by
  constructor
  · rw [brightnessDecode_eq _ (300 : ℚ) rfl (by norm_num),
      jsRound_eq ((300 : ℚ) / 2.54) 118 (by norm_num) (by norm_num)]
  · decide

/-- C4 amended: for every wire message whose brightness field is present and
nonzero, decode returns round (brightness / 2.54) with no clamping; for wire
brightness in the documented wire range 1-254 that value does lie in [0, 100].
The bound does not extend to arbitrary numeric wire values: the unclamped
formula can exceed 100 out of range, as the counterexample at 300 shows. -/
theorem brightnessDecode_formula (b : ℚ) (hb : b ≠ 0) :
    brightnessDecode { brightness := some b } = some (jsRound (b / 2.54)) ∧
    (1 ≤ b → b ≤ 254 → 0 ≤ jsRound (b / 2.54) ∧ jsRound (b / 2.54) ≤ 100) := by
  refine ⟨brightnessDecode_eq _ _ rfl hb, fun hb1 hb2 => ⟨?_, ?_⟩⟩
  · have h0 : jsRound (0 : ℚ) = 0 := jsRound_eq _ 0 (by norm_num) (by norm_num)
    have hmono := jsRound_mono (show (0 : ℚ) ≤ b / 2.54 from
      div_nonneg (by linarith) (by norm_num))
    rw [h0] at hmono
    exact hmono
  · have h100 : jsRound (100 : ℚ) = 100 := jsRound_eq _ 100 (by norm_num) (by norm_num)
    have hle : b / 2.54 ≤ 100 := by
      rw [div_le_iff₀ (by norm_num : (0 : ℚ) < 2.54)]
      nlinarith
    have hmono := jsRound_mono hle
    rw [h100] at hmono
    exact hmono

/-- C4 amended witness: the amended theorem applied at wire brightness 254,
with every hypothesis discharged. -/
theorem brightnessDecode_formula_witness :
    (254 : ℚ) ≠ 0 ∧
    (brightnessDecode { brightness := some (254 : ℚ) } = some (jsRound ((254 : ℚ) / 2.54)) ∧
      ((1 : ℚ) ≤ 254 → (254 : ℚ) ≤ 254 →
        0 ≤ jsRound ((254 : ℚ) / 2.54) ∧ jsRound ((254 : ℚ) / 2.54) ≤ 100)) :=
  ⟨by norm_num, brightnessDecode_formula 254 (by norm_num)⟩

/-- C9: every output channel of the Chromaticity Converter lies in [0, 255]
(clamped toward 0, never wrapped or negative), and the reference white point
(0.3127, 0.3290) at the maximum brightness 254 converts to (255, 255, 255). -/
theorem cie_to_rgb_range_and_white :
    (∀ x y bri : ℝ,
      0 ≤ (cie_to_rgb x y bri).1 ∧ (cie_to_rgb x y bri).1 ≤ 255 ∧
      0 ≤ (cie_to_rgb x y bri).2.1 ∧ (cie_to_rgb x y bri).2.1 ≤ 255 ∧
      0 ≤ (cie_to_rgb x y bri).2.2 ∧ (cie_to_rgb x y bri).2.2 ≤ 255) ∧
    cie_to_rgb 0.3127 0.3290 254 = (255, 255, 255) := by
  constructor
  · intro x y bri
    exact ⟨(channelTo255_mem _).1, (channelTo255_mem _).2, (channelTo255_mem _).1,
      (channelTo255_mem _).2, (channelTo255_mem _).1, (channelTo255_mem _).2⟩
  · have hr : channelTo255 (gammaCorrect
        (((254 : ℝ) / 254 / 0.3290 * 0.3127) * 3.2406 - (254 : ℝ) / 254 * 1.5372 -
          ((254 : ℝ) / 254 / 0.3290 * (1 - 0.3127 - 0.3290)) * 0.4986)) = 255 :=
      channelTo255_near_one _ (by norm_num) (by norm_num)
    have hg : channelTo255 (gammaCorrect
        (-((254 : ℝ) / 254 / 0.3290 * 0.3127) * 0.9689 + (254 : ℝ) / 254 * 1.8758 +
          ((254 : ℝ) / 254 / 0.3290 * (1 - 0.3127 - 0.3290)) * 0.0415)) = 255 :=
      channelTo255_near_one _ (by norm_num) (by norm_num)
    have hb : channelTo255 (gammaCorrect
        (((254 : ℝ) / 254 / 0.3290 * 0.3127) * 0.0557 - (254 : ℝ) / 254 * 0.2040 +
          ((254 : ℝ) / 254 / 0.3290 * (1 - 0.3127 - 0.3290)) * 1.0570)) = 255 :=
      channelTo255_near_one _ (by norm_num) (by norm_num)
    show (channelTo255 (gammaCorrect
        (((254 : ℝ) / 254 / 0.3290 * 0.3127) * 3.2406 - (254 : ℝ) / 254 * 1.5372 -
          ((254 : ℝ) / 254 / 0.3290 * (1 - 0.3127 - 0.3290)) * 0.4986)),
      channelTo255 (gammaCorrect
        (-((254 : ℝ) / 254 / 0.3290 * 0.3127) * 0.9689 + (254 : ℝ) / 254 * 1.8758 +
          ((254 : ℝ) / 254 / 0.3290 * (1 - 0.3127 - 0.3290)) * 0.0415)),
      channelTo255 (gammaCorrect
        (((254 : ℝ) / 254 / 0.3290 * 0.3127) * 0.0557 - (254 : ℝ) / 254 * 0.2040 +
          ((254 : ℝ) / 254 / 0.3290 * (1 - 0.3127 - 0.3290)) * 1.0570))) = ((255 : ℤ), 255, 255)
    rw [hr, hg, hb]

/-- C10: the colorTemperature codec performs no range validation or clamping:
every integer outside the device range [140, 500] encodes to a color_temp
outside the vendor range [250, 454], with 0 encoding to 171, and every present
nonzero integer color_temp outside [250, 454] decodes to a value outside
[140, 500]. -/
theorem colorTemperature_no_clamp :
    (∀ v : ℤ, v < 140 ∨ 500 < v →
      ∃ ct : ℤ, (colorTemperatureEncode (v : ℚ)).color_temp = some (ct : ℚ) ∧
        (ct < 250 ∨ 454 < ct)) ∧
    (∀ ct : ℤ, ct ≠ 0 → ct < 250 ∨ 454 < ct →
      ∃ d : ℤ, colorTemperatureDecode { color_temp := some ((ct : ℤ) : ℚ) } = some d ∧
        (d < 140 ∨ 500 < d)) ∧
    (colorTemperatureEncode 0).color_temp = some 171 := by
  refine ⟨?_, ?_, ?_⟩
  · intro v hv
    rw [colorTemperatureEncode_eq]
    have hae1 := jsRound_le (((v : ℚ) - 140) * (454 - 250) / (500 - 140) + 250)
    have hae2 := jsRound_gt (((v : ℚ) - 140) * (454 - 250) / (500 - 140) + 250)
    set e : ℤ := jsRound (((v : ℚ) - 140) * (454 - 250) / (500 - 140) + 250) with he
    refine ⟨e, rfl, ?_⟩
    rcases hv with hv | hv
    · left
      have hvq : (v : ℚ) ≤ 139 := by exact_mod_cast (by omega : v ≤ 139)
      have hq : (e : ℚ) < 250 := by linarith
      exact_mod_cast hq
    · right
      have hvq : (501 : ℚ) ≤ (v : ℚ) := by exact_mod_cast (by omega : 501 ≤ v)
      have hq : (454 : ℚ) < (e : ℚ) := by linarith
      exact_mod_cast hq
  · intro ct hct0 hct
    have hctq : ((ct : ℤ) : ℚ) ≠ 0 := Int.cast_ne_zero.mpr hct0
    have hd1 := jsRound_le ((((ct : ℤ) : ℚ) - 250) * (500 - 140) / (454 - 250) + 140)
    have hd2 := jsRound_gt ((((ct : ℤ) : ℚ) - 250) * (500 - 140) / (454 - 250) + 140)
    refine ⟨jsRound ((((ct : ℤ) : ℚ) - 250) * (500 - 140) / (454 - 250) + 140),
      colorTemperatureDecode_eq _ _ rfl hctq, ?_⟩
    set d : ℤ := jsRound ((((ct : ℤ) : ℚ) - 250) * (500 - 140) / (454 - 250) + 140) with hd
    rcases hct with h | h
    · left
      have hq : ((ct : ℤ) : ℚ) ≤ 249 := by exact_mod_cast (by omega : ct ≤ 249)
      have hdq : (d : ℚ) < 140 := by linarith
      exact_mod_cast hdq
    · right
      have hq : (455 : ℚ) ≤ ((ct : ℤ) : ℚ) := by exact_mod_cast (by omega : 455 ≤ ct)
      have hdq : (500 : ℚ) < (d : ℚ) := by linarith
      exact_mod_cast hdq
  · rw [colorTemperatureEncode_eq,
      jsRound_eq (((0 : ℚ) - 140) * (454 - 250) / (500 - 140) + 250) 171 (by norm_num) (by norm_num)]
    norm_num

/-- C10 witness: the theorem applied at out-of-range inputs 0 (encode side)
and 249 (decode side), with every hypothesis discharged. -/
theorem colorTemperature_no_clamp_witness :
    ((0 : ℤ) < 140 ∧
      ∃ ct : ℤ, (colorTemperatureEncode ((0 : ℤ) : ℚ)).color_temp = some (ct : ℚ) ∧
        (ct < 250 ∨ 454 < ct)) ∧
    ((249 : ℤ) ≠ 0 ∧ (249 : ℤ) < 250 ∧
      ∃ d : ℤ, colorTemperatureDecode { color_temp := some (((249 : ℤ) : ℤ) : ℚ) } = some d ∧
        (d < 140 ∨ 500 < d)) :=
  ⟨⟨by decide, colorTemperature_no_clamp.1 0 (Or.inl (by decide))⟩,
   ⟨by decide, by decide, colorTemperature_no_clamp.2.1 249 (by decide) (Or.inl (by decide))⟩⟩

end TradfriCodec
